import Mathlib

/-!
Verification of the t3 media-analysis / Meta-Ads-policy pipeline.

The JavaScript sources are embedded shallowly:

* JSON values are modelled by the inductive `Json` (JSON numbers are taken
  as integers; no claim involves fractional numbers).
* `JSON.parse` is an external runtime primitive, so every embedded function
  takes a parameter `parse : String → Except String Json`; a `.error msg`
  models a thrown `SyntaxError` with that message.
* Calls to the generation services (Gemini / Claude), the HTTP fetch, the
  file system and the clock are likewise passed in as explicit outcome
  parameters: what the sources contribute is the control flow around them.
* Prompt construction is not modelled: the prompt string is only ever handed
  to the opaque generation service, whose response is already a parameter.
-/

namespace T3

/-- JavaScript `String.prototype.trim`. -/
def trimStr (s : String) : String :=
  String.mk (((s.data.dropWhile Char.isWhitespace).reverse.dropWhile Char.isWhitespace).reverse)

/-- A JSON value.  Objects are association lists (`JSON.parse` never yields
duplicate keys).  An array carries, besides its elements, the association
list of its expando properties: JavaScript arrays are extensible objects,
so a later property assignment can attach named fields to them.
`JSON.parse` itself always produces arrays with no expando properties
(an empty `props` list). -/
inductive Json where
  | null : Json
  | bool : Bool → Json
  | num : Int → Json
  | str : String → Json
  | arr (elems : List Json) (props : List (String × Json)) : Json
  | obj : List (String × Json) → Json

/-- JavaScript truthiness of a JSON value (`undefined` is handled by
`truthyOpt` below).  `NaN` cannot arise from `JSON.parse`. -/
def truthy : Json → Bool
  | .null => false
  | .bool b => b
  | .num n => n != 0
  | .str s => s != ""
  | .arr _ _ => true
  | .obj _ => true

/-- Key lookup in the member list of an object. -/
def getKey : List (String × Json) → String → Option Json
  | [], _ => none
  | (k, v) :: rest, key => if k = key then some v else getKey rest key

/-- JavaScript property read `j[key]`: `none` models `undefined`.  Reads
on arrays see their expando properties (built-ins such as `length` are
never read by name in these sources); reads on primitives yield
`undefined`; reads on `null` are handled at each call site (they throw). -/
def Json.getField : Json → String → Option Json
  | .obj fields, key => getKey fields key
  | .arr _ props, key => getKey props key
  | _, _ => none

/-- Update-or-append for the member list of an object (JS property assignment
keeps the position of an existing key and appends a new one). -/
def setKey : List (String × Json) → String → Json → List (String × Json)
  | [], key, v => [(key, v)]
  | (k, w) :: rest, key, v =>
      if k = key then (k, v) :: rest else (k, w) :: setKey rest key v

/-- JavaScript property assignment `j[key] = v` in strict mode (all these
sources are ES modules): objects are updated, arrays accept the value as
an expando property, and assignment on a primitive or `null` throws a
`TypeError`, modelled by `none`. -/
def Json.setField : Json → String → Json → Option Json
  | .obj fields, key, v => some (.obj (setKey fields key v))
  | .arr elems props, key, v => some (.arr elems (setKey props key v))
  | _, _, _ => none

/-- Truthiness of a possibly-`undefined` value. -/
def truthyOpt : Option Json → Bool
  | some j => truthy j
  | none => false

/-- The span matched by the greedy regexes `/\x7b[\s\S]*\x7d/` and
`/\[.*\]/s`: from the first occurrence of `opc` to the last occurrence of
`clc`, provided some `clc` follows the first `opc`. -/
def spanFrom (opc clc : Char) (s : List Char) : Option (List Char) :=
  let t := s.dropWhile (· ≠ opc)
  let u := (t.reverse.dropWhile (· ≠ clc)).reverse
  if u.isEmpty then none else some u

/-- `text.match(/\x7b[\s\S]*\x7d/)`, the brace-substring recovery used by
the summarizer and both policy checkers. -/
def braceMatch (s : String) : Option String :=
  (spanFrom '{' '}' s.data).map String.mk

/-- `text.match(/\[.*\]/s)`, the bracket-substring recovery used by the
policy extractor. -/
def bracketMatch (s : String) : Option String :=
  (spanFrom '[' ']' s.data).map String.mk

/-! ## meta-ads-policy-checker (Gemini variant, `src/unnamed/part_000`)

`MetaAdsPolicyChecker` there holds an API key (validated non-empty by the
constructor), a Gemini model handle and the mutable `policyContent` field,
which is the whole instance state. -/

/-- The instance state of the Gemini `MetaAdsPolicyChecker`:
`this.policyContent`, initially `null`. -/
structure CheckerSt where
  policyContent : Option String

/-- `MetaAdsPolicyChecker.validateInput`.  The summary argument arrives as
`analysisResult.data.summary` in the server, so it is an arbitrary JSON
value or `undefined`; the guard `!summary || typeof summary !== "string"`
rejects everything but a non-empty string, then the trimmed-empty and
10,000-character checks run. -/
def validateInput : Option Json → Except String String
  | some (.str s) =>
      if s = "" then .error "Summary must be a non-empty string"
      else if (trimStr s).length = 0 then .error "Summary cannot be empty"
      else if s.length > 10000 then .error "Summary is too long (max 10,000 characters)"
      else .ok s
  | _ => .error "Summary must be a non-empty string"

/-- `MetaAdsPolicyChecker.loadPolicyFile`: `fileRead` is the outcome of
`fs.readFile`.  The catch of the method itself re-wraps both a read failure and the
empty-content throw. -/
def loadPolicyFile (fileRead : Except String String) : Except String String :=
  match fileRead with
  | .error e => .error ("Failed to load policy file: " ++ e)
  | .ok content =>
      if trimStr content = "" then
        .error ("Failed to load policy file: " ++ "Policy file is empty or invalid")
      else .ok content

/-- Whether this JSON value is the literal `null`, on which property reads
throw. -/
def isNullJ : Json → Bool
  | .null => true
  | _ => false

/-- JavaScript `typeof j === "object"` over parsed JSON: true for `null`,
arrays and objects. -/
def typeofObject : Json → Bool
  | .null => true
  | .arr _ _ => true
  | .obj _ => true
  | _ => false

/-- `["high", "medium", "low"].includes(x)`: strict equality against the
three severity strings. -/
def severityOk : Option Json → Bool
  | some (.str s) => s = "high" || s = "medium" || s = "low"
  | _ => false

/-- `typeof x === "boolean"` on a property read. -/
def isBoolField : Option Json → Bool
  | some (.bool _) => true
  | _ => false

/-- `Array.isArray(x)` on a property read, exposing the elements
(`forEach` iterates only the elements, never expando properties). -/
def arrOf : Option Json → Option (List Json)
  | some (.arr vs _) => some vs
  | _ => none

/-- `MetaAdsPolicyChecker.validateResponse` applied to the violation list,
carrying the running index for the error messages.  A `null` element makes
the JS `violation.category` read throw a `TypeError` (caught by
`checkPolicy`); property reads on other non-objects yield `undefined`,
which is falsy. -/
def validateViolations : List Json → Nat → Except String Unit
  | [], _ => .ok ()
  | v :: rest, i =>
      if isNullJ v then .error "Cannot read properties of null (reading category)"
      else if !(truthyOpt (v.getField "category") && truthyOpt (v.getField "description")) then
        .error ("Violation at index " ++ toString i ++ " missing required fields")
      else if !severityOk (v.getField "severity") then
        .error ("Invalid severity level in violation at index " ++ toString i)
      else validateViolations rest (i + 1)

/-- `MetaAdsPolicyChecker.validateResponse`: the guard
`!response || typeof response !== "object"` (arrays pass it — they are
truthy and object-typed — but then fail the `violated` check, carrying no
such property), then the `violated`/`violations` type checks and the
per-violation checks. -/
def validateResponse (response : Json) : Except String Unit :=
  if !(truthy response && typeofObject response) then .error "Invalid response format"
  else if !isBoolField (response.getField "violated") then
    .error "Response must include \"violated\" boolean field"
  else
    match arrOf (response.getField "violations") with
    | some vs => validateViolations vs 0
    | none => .error "Response must include \"violations\" array field"

/-- The conditions under which `validateResponse` accepts one violation
entry: not `null`, truthy `category` and `description`, and a severity
drawn from high/medium/low. -/
def violOk (v : Json) : Bool :=
  !isNullJ v && truthyOpt (v.getField "category") && truthyOpt (v.getField "description") &&
    severityOk (v.getField "severity")

/-- The conditions under which `validateResponse` accepts a parsed verdict:
a boolean `violated`, an array `violations`, every entry accepted. -/
def verdictShapeOk (j : Json) : Bool :=
  isBoolField (j.getField "violated") &&
    (match arrOf (j.getField "violations") with
     | some vs => vs.all violOk
     | none => false)

/-- The object returned by `checkPolicy`; the failure shape has no `data`
property (`none` models the absent field). -/
structure PolicyCheckResult where
  success : Bool
  data : Option Json
  error : Option String
  timestamp : String

/-- `MetaAdsPolicyChecker.checkPolicy`.  Parameters standing for the
external world: `parse` is `JSON.parse`; `fileRead` the `fs.readFile`
outcome should a (re)load run; `genResult` the Gemini
`generateContent/response.text()` outcome; `now` the ISO timestamp.  Every
throw lands in the catch of the method itself, producing the failure shape, so the
function is total and also returns the possibly-updated instance state. -/
def checkPolicy (parse : String → Except String Json) (fileRead : Except String String)
    (genResult : Except String String) (now : String)
    (st : CheckerSt) (summary : Option Json) (policyFilePath : Option String) :
    PolicyCheckResult × CheckerSt :=
  let fail : String → CheckerSt → PolicyCheckResult × CheckerSt := fun e s =>
    ({ success := false, data := none, error := some e, timestamp := now }, s)
  match validateInput summary with
  | .error e => fail e st
  | .ok _ =>
      let needLoad : Bool :=
        (match st.policyContent with
         | none => true
         | some c => c = "") || policyFilePath.isSome
      let loaded : Except String CheckerSt :=
        if needLoad then
          -- `loadPolicyFile` assigns `this.policyContent` before the
          -- empty-content check, so a successful read updates the state
          -- even when the empty-content throw follows.
          match loadPolicyFile fileRead with
          | .error e => .error e
          | .ok content => .ok { policyContent := some content }
        else .ok st
      match loaded with
      | .error e =>
          fail e (match fileRead with
                  | .ok content => { policyContent := some content }
                  | .error _ => st)
      | .ok st1 =>
          match genResult with
          | .error e => fail e st1
          | .ok text =>
              match braceMatch text with
              | none => fail ("Failed to parse AI response as JSON: " ++
                              "No valid JSON found in response") st1
              | some m =>
                  match parse m with
                  | .error pe => fail ("Failed to parse AI response as JSON: " ++ pe) st1
                  | .ok analysisResult =>
                      match validateResponse analysisResult with
                      | .error e => fail e st1
                      | .ok _ =>
                          ({ success := true, data := some analysisResult,
                             error := none, timestamp := now }, st1)

/-! ## summarize-multimedia-gemini (`src/backend/summarize-multimedia-gemini/index.js`) -/

/-- `this.supportedVideoFormats`. -/
def supportedVideoFormats : List String :=
  ["video/mp4", "video/avi", "video/mov", "video/wmv", "video/flv", "video/webm", "video/mkv"]

/-- `this.supportedImageFormats`. -/
def supportedImageFormats : List String :=
  ["image/jpeg", "image/jpg", "image/png", "image/gif", "image/webp", "image/bmp",
   "image/tiff", "image/svg+xml"]

/-- `this.supportedFormats`. -/
def supportedFormats : List String := supportedVideoFormats ++ supportedImageFormats

/-- `this.maxFileSize` (100MB). -/
def maxFileSize : Nat := 100 * 1024 * 1024

/-- What the file system reports about the upload: outcomes of
`fs.pathExists`, `stats.isFile()`, `stats.size` and `mime.lookup(filePath)`
(`none` models `mime.lookup` returning `false`). -/
structure FsInfo where
  pathExists : Bool
  isFile : Bool
  size : Nat
  mimeLookup : Option String

/-- POSIX `path.basename`: trailing separators stripped, then the last
component. -/
def basename (p : String) : String :=
  match p.data.reverse.dropWhile (fun c => c = '/') with
  | [] => if p.data.isEmpty then "" else "/"
  | cs => String.mk ((cs.takeWhile (fun c => c ≠ '/')).reverse)

/-- `SummarizeMultiMedia.validateInput`, the Joi schema: both strings
required and non-empty, `prompt` at most 1000 characters (Joi validates
the keys in declaration order and aborts at the first failure). -/
def validateMediaInput (filePath prompt : String) : Except String Unit :=
  if filePath = "" then .error "\"filePath\" is not allowed to be empty"
  else if prompt = "" then .error "\"prompt\" is not allowed to be empty"
  else if prompt.length > 1000 then
    .error "\"prompt\" length must be less than or equal to 1000 characters long"
  else .ok ()

/-- `SummarizeMultiMedia.validateMultimediaFile`: existence, regular-file,
size and MIME checks in source order; on success the MIME type, size and
derived media kind (video/image). -/
def validateMultimediaFile (fsi : FsInfo) (filePath : String) :
    Except String (String × Nat × String) :=
  if !fsi.pathExists then .error ("File not found: " ++ filePath)
  else if !fsi.isFile then .error ("Path is not a file: " ++ filePath)
  else if fsi.size > maxFileSize then
    .error ("File size exceeds maximum limit of " ++ toString (maxFileSize / (1024 * 1024)) ++ "MB")
  else
    match fsi.mimeLookup with
    | some mt =>
        if supportedFormats.contains mt then
          .ok (mt, fsi.size,
               if supportedVideoFormats.contains mt then "video"
               else if supportedImageFormats.contains mt then "image"
               else "unknown")
        else .error ("Unsupported file format. Supported formats: " ++
                     String.intercalate ", " supportedFormats)
    | none => .error ("Unsupported file format. Supported formats: " ++
                      String.intercalate ", " supportedFormats)

/-- The `fileMetadata` object appended by `analyzeMultimedia`; everything
but `analyzedAt` comes from the path and the validated file facts. -/
def fileMetadata (filePath : String) (mt : String) (sz : Nat) (mdt : String)
    (now : String) : Json :=
  .obj [("fileName", .str (basename filePath)), ("fileSize", .num sz),
        ("mimeType", .str mt), ("mediaType", .str mdt), ("analyzedAt", .str now)]

/-- The return shape of `analyzeMultimedia`; `errorMsg` carries
`error.message` of the failure object. -/
structure AnalyzeResult where
  success : Bool
  data : Option Json
  errorMsg : Option String

/-- `SummarizeMultiMedia.analyzeMultimedia`.  `readResult` is the
`fs.readFile`-to-base64 outcome, `genResult` the Gemini call outcome.  The
parse chain is: direct `JSON.parse`; else brace-substring and re-parse;
else the raw-text fallback object.  Appending `fileMetadata` to a
non-object parse result throws a strict-mode `TypeError`, caught by the
outer catch of the method. -/
def analyzeMultimedia (parse : String → Except String Json) (fsi : FsInfo)
    (readResult : Except String String) (genResult : Except String String)
    (now : String) (filePath prompt : String) : AnalyzeResult :=
  let fail : String → AnalyzeResult := fun e =>
    { success := false, data := none, errorMsg := some e }
  match validateMediaInput filePath prompt with
  | .error e => fail ("Input validation failed: " ++ e)
  | .ok _ =>
      match validateMultimediaFile fsi filePath with
      | .error e => fail ("File validation failed: " ++ e)
      | .ok (mt, sz, mdt) =>
          match readResult with
          | .error e => fail ("Failed to read file: " ++ e)
          | .ok _ =>
              match genResult with
              | .error e => fail e
              | .ok text =>
                  let analysisResult : Json :=
                    match parse text with
                    | .ok j => j
                    | .error _ =>
                        match braceMatch text with
                        | some m =>
                            match parse m with
                            | .ok j => j
                            | .error _ =>
                                .obj [("summary", .str (trimStr text)),
                                      ("keyPoints", .arr [.str "Raw analysis response provided"] []),
                                      ("note", .str "Response was not in expected JSON format, using raw text")]
                        | none =>
                            .obj [("summary", .str (trimStr text)),
                                  ("keyPoints", .arr [.str "Raw analysis response provided"] []),
                                  ("note", .str "Response was not in expected JSON format, using raw text")]
                  match analysisResult.setField "fileMetadata" (fileMetadata filePath mt sz mdt now) with
                  | some withMeta => { success := true, data := some withMeta, errorMsg := none }
                  | none => fail "Cannot create property fileMetadata on primitive value"

/-! ## The `/summarize` orchestrator (`src/backend/server.js`, lines 216-333)

Only the pipeline after a successful upload is modelled: the multer upload
and file-type derivation are the excluded HTTP collaborator, so the
derived `fileInfo`/`fileType` values arrive as parameters. -/

/-- `fileType.charAt(0).toUpperCase() + fileType.slice(1)`. -/
def capitalize (s : String) : String :=
  match s.data with
  | [] => ""
  | c :: rest => String.mk (c.toUpper :: rest)

/-- The `fileInfo` block echoed in every `/summarize` response. -/
structure FileInfoR where
  originalName : String
  filename : String
  fileSize : Nat
  fileType : String
  uploadDate : String

/-- The `policyCheck` block of a `/summarize` response: either the verdict
fields or the degraded `error`/`details` pair. -/
inductive PolicyBlock where
  | verdict (violated violations reasoning : Option Json) (checkedAt : String)
  | failed (err details : String)

/-- The JSON body (plus status code) sent by the `/summarize` handler. -/
structure SResponse where
  status : Nat
  success : Bool
  message : String
  fileInfo : Option FileInfoR
  analysis : Option (Option Json × Option Json × Option Json)
  policyCheck : Option PolicyBlock
  errorCode : Option String
  details : Option String

/-- The inner policy stage of the handler (server.js lines 237-251): build
the checker (`GEMINI_API_KEY` is a non-empty string, so the constructor
cannot throw), `loadPolicyFile`, `checkPolicy` on the analysis summary,
and turn a non-success result into the thrown
`Policy analysis failed: ...` error.  Any `.error` is what the
`policyError` catch receives. -/
def policyStage (parse : String → Except String Json) (fileRead : Except String String)
    (polGen : Except String String) (now : String) (summary : Option Json) :
    Except String (Json × String) :=
  match loadPolicyFile fileRead with
  | .error e => .error e
  | .ok content =>
      let st : CheckerSt := { policyContent := some content }
      let res := (checkPolicy parse fileRead polGen now st summary none).1
      if res.success then
        .ok (res.data.getD Json.null, res.timestamp)
      else .error ("Policy analysis failed: " ++ res.error.getD "undefined")

/-- The `/summarize` handler from the Gemini-analysis step on: `ar` is the
`analyzeMultimedia` result; a non-success analysis throws into the outer
catch (HTTP 500, `ANALYSIS_FAILED`); a policy-stage error degrades the
response while keeping `success: true` and the analysis block. -/
def summarizeHandler (parse : String → Except String Json) (fi : FileInfoR)
    (ar : AnalyzeResult) (fileRead polGen : Except String String) (now : String) :
    SResponse :=
  if ar.success then
    let analysisBlock :=
      (ar.data.bind (Json.getField · "summary"),
       ar.data.bind (Json.getField · "keyPoints"),
       ar.data.bind (Json.getField · "fileMetadata"))
    match policyStage parse fileRead polGen now (ar.data.bind (Json.getField · "summary")) with
    | .ok (d, ts) =>
        { status := 201, success := true,
          message := capitalize fi.fileType ++ " analyzed and policy-checked successfully",
          fileInfo := some fi, analysis := some analysisBlock,
          policyCheck := some (.verdict (d.getField "violated") (d.getField "violations")
                                        (d.getField "reasoning") ts),
          errorCode := none, details := none }
    | .error m =>
        { status := 201, success := true,
          message := capitalize fi.fileType ++ " analyzed successfully, but policy check failed",
          fileInfo := some fi, analysis := some analysisBlock,
          policyCheck := some (.failed "Policy analysis failed" m),
          errorCode := none, details := none }
  else
    { status := 500, success := false,
      message := "File uploaded successfully but analysis failed",
      fileInfo := some fi, analysis := none, policyCheck := none,
      errorCode := some "ANALYSIS_FAILED",
      details := some ("Gemini analysis failed: " ++ ar.errorMsg.getD "undefined") }

/-! ## meta-ads-policy-dynamic-checker (Claude variant, `src/unnamed/part_001`) -/

/-- The control-character strip
`.replace(/[\x00-\x1F\x7F-\x9F]/g, ...)` with the empty replacement. -/
def stripControl (s : String) : String :=
  String.mk (s.data.filter (fun c => !(c.toNat ≤ 0x1F || (0x7F ≤ c.toNat && c.toNat ≤ 0x9F))))

/-- One global replace of the two-character sequence backslash-`esc` by
`rep`, left to right and non-overlapping, as the regex replaces
`.replace` regex calls do. -/
def unescapeChar (esc rep : Char) : List Char → List Char
  | [] => []
  | '\\' :: c :: rest =>
      if c = esc then rep :: unescapeChar esc rep rest
      else '\\' :: unescapeChar esc rep (c :: rest)
  | c :: rest => c :: unescapeChar esc rep rest

/-- The escaped-whitespace fixes, in source order:
`.replace` of the escaped n, t and r sequences, in source order. -/
def unescapeWs (s : String) : String :=
  String.mk (unescapeChar 'r' '\r' (unescapeChar 't' '\t' (unescapeChar 'n' '\n' s.data)))

/-- The full `cleanedText` normalization of `extractPoliciesWithClaude`:
strip control characters, un-escape whitespace, trim. -/
def cleanResponse (s : String) : String := trimStr (unescapeWs (stripControl s))

/-- `MetaAdsPolicyChecker.extractPoliciesWithClaude` given the Claude call
outcome: sanitize, parse, else bracket-substring, re-sanitize (no trim the
second time), re-parse; every failure is re-wrapped by the outer catch of
the method. -/
def extractPolicies (parse : String → Except String Json)
    (claudeOut : Except String String) : Except String Json :=
  match claudeOut with
  | .error e => .error ("Failed to extract policies with Claude: " ++ e)
  | .ok responseText =>
      let cleanedText := cleanResponse responseText
      match parse cleanedText with
      | .ok j => .ok j
      | .error pe =>
          match bracketMatch cleanedText with
          | some m =>
              match parse (unescapeWs (stripControl m)) with
              | .ok j => .ok j
              | .error pe2 => .error ("Failed to extract policies with Claude: " ++ pe2)
          | none =>
              .error ("Failed to extract policies with Claude: " ++
                      "Failed to parse policies JSON from Claude response: " ++ pe)

/-- The external world of the dynamic checker: `JSON.parse`, the outcome of
the n-th HTTP fetch of the policy page, the cheerio text extraction, and the
outcome of the n-th Claude extraction call on the given page text. -/
structure PolicyEnv where
  parse : String → Except String Json
  fetchResult : Nat → Except String String
  htmlToText : String → String
  claudeResp : Nat → String → Except String String

/-- The instance state of the dynamic checker plus counters for the expensive
external operations: `this.cachedPolicies` (initially `null`), the number
of HTTP fetches issued and the number of Claude extraction calls issued. -/
structure PCState where
  cachedPolicies : Option Json
  fetchCount : Nat
  extractCount : Nat

/-- Truthiness of `this.cachedPolicies` (a stored JSON `null`, `0`, `""` or
`false` is falsy, exactly like the never-assigned `null`). -/
def cacheTruthy : Option Json → Bool
  | some j => truthy j
  | none => false

/-- `MetaAdsPolicyChecker.getPolicies`, sequential: return the cached value
if truthy, else fetch (wrapping a fetch failure as
`Failed to fetch Meta policies: ...`), extract the page text and run the
Claude extraction, caching a successful result. -/
def getPolicies (env : PolicyEnv) (st : PCState) : Except String Json × PCState :=
  if cacheTruthy st.cachedPolicies then
    (.ok (st.cachedPolicies.getD Json.null), st)
  else
    match env.fetchResult st.fetchCount with
    | .error e =>
        (.error ("Failed to fetch Meta policies: " ++ e),
         { st with fetchCount := st.fetchCount + 1 })
    | .ok html =>
        let textContent := env.htmlToText html
        let st1 : PCState := { st with fetchCount := st.fetchCount + 1 }
        match extractPolicies env.parse (env.claudeResp st1.extractCount textContent) with
        | .error e => (.error e, { st1 with extractCount := st1.extractCount + 1 })
        | .ok pols =>
            (.ok pols, { st1 with extractCount := st1.extractCount + 1,
                                  cachedPolicies := some pols })

/-- `MetaAdsPolicyChecker.checkCompliance`: validate the ad summary
(truthy-string check only here), `getPolicies`, run the Claude compliance
call (`complianceResp` its outcome), then direct parse / brace-substring
parse of the response; every throw is wrapped as
`Failed to check compliance: ...` by the catch of the method. -/
def checkCompliance (env : PolicyEnv) (complianceResp : Except String String)
    (st : PCState) (adSummary : Option Json) : Except String Json × PCState :=
  match adSummary with
  | some (.str s) =>
      if s = "" then
        (.error ("Failed to check compliance: " ++ "Ad summary must be a non-empty string"), st)
      else
        match getPolicies env st with
        | (.error e, st') => (.error ("Failed to check compliance: " ++ e), st')
        | (.ok _, st') =>
            match complianceResp with
            | .error e => (.error ("Failed to check compliance: " ++ e), st')
            | .ok responseText =>
                match env.parse responseText with
                | .ok j => (.ok j, st')
                | .error _ =>
                    match braceMatch responseText with
                    | some m =>
                        match env.parse m with
                        | .ok j => (.ok j, st')
                        | .error pe2 =>
                            (.error ("Failed to check compliance: " ++ pe2), st')
                    | none =>
                        (.error ("Failed to check compliance: " ++
                                 "Failed to parse compliance result JSON from Claude response"), st')
  | _ => (.error ("Failed to check compliance: " ++ "Ad summary must be a non-empty string"), st)

/-- The shape `checkAdCompliance` always returns. -/
structure AdComplianceResult where
  compliant : Json
  violatedPolicies : Json
  details : Json

/-- The failure shape of `checkAdCompliance`. -/
def errShape (e : String) : AdComplianceResult :=
  { compliant := .bool false, violatedPolicies := .arr [] [],
    details := .obj [("error", .str e),
                     ("description", .str "An error occurred while checking compliance")] }

/-- JavaScript `x || dflt` on a property read. -/
def jsOr (x : Option Json) (dflt : Json) : Json :=
  match x with
  | some j => if truthy j then j else dflt
  | none => dflt

/-- `MetaAdsPolicyChecker.checkAdCompliance`: total.  A `checkCompliance`
throw yields the failure shape carrying the message; a `null` result makes
the `result.compliant` read throw a `TypeError` inside the same try, giving
the failure shape too; otherwise the defaulted structure is returned. -/
def checkAdCompliance (env : PolicyEnv) (complianceResp : Except String String)
    (st : PCState) (adSummary : Option Json) : AdComplianceResult × PCState :=
  match checkCompliance env complianceResp st adSummary with
  | (.error e, st') => (errShape e, st')
  | (.ok j, st') =>
      match j with
      | .null => (errShape "Cannot read properties of null (reading compliant)", st')
      | _ =>
          ({ compliant := jsOr (j.getField "compliant") (.bool false),
             violatedPolicies := jsOr (j.getField "violatedPolicies") (.arr [] []),
             details := jsOr (j.getField "details") (.obj []) }, st')

/-! ### Interleaving semantics for concurrent `getPolicies` calls

JavaScript is single-threaded: a `getPolicies` invocation runs
synchronously from the cache check through issuing the fetch, suspends at
each `await`, and interleaves with other invocations only at those
suspension points.  Each in-flight invocation is therefore a small state
machine over those segments, and a schedule is the order in which the event
loop resumes them. -/

/-- Where one in-flight `getPolicies` invocation stands: not yet started;
suspended on fetch number `n`; suspended on extraction number `n` over the
extracted page text; or finished with its result. -/
inductive TPhase where
  | ready
  | fetching (n : Nat)
  | extracting (n : Nat) (content : String)
  | finished (r : Except String Json)

/-- The process state during concurrent calls: the shared
`this.cachedPolicies`, the operation counters, and the two invocations. -/
structure ConcState where
  shared : Option Json
  fetchCount : Nat
  extractCount : Nat
  taskA : TPhase
  taskB : TPhase

/-- Run one scheduler segment of a single invocation: the cache-check
segment (issuing the fetch on a miss), the fetch-resolution segment
(extracting the page text and issuing the Claude call), or the
extraction-resolution segment (storing a successful result in the shared
cache).  Returns the updated shared cache, counters, and phase. -/
def stepTask (env : PolicyEnv) (shared : Option Json) (fc ec : Nat) (ph : TPhase) :
    Option Json × Nat × Nat × TPhase :=
  match ph with
  | .ready =>
      if cacheTruthy shared then
        (shared, fc, ec, .finished (.ok (shared.getD Json.null)))
      else (shared, fc + 1, ec, .fetching fc)
  | .fetching n =>
      match env.fetchResult n with
      | .error e =>
          (shared, fc, ec, .finished (.error ("Failed to fetch Meta policies: " ++ e)))
      | .ok html => (shared, fc, ec + 1, .extracting ec (env.htmlToText html))
  | .extracting n content =>
      match extractPolicies env.parse (env.claudeResp n content) with
      | .error e => (shared, fc, ec, .finished (.error e))
      | .ok pols => (some pols, fc, ec, .finished (.ok pols))
  | .finished r => (shared, fc, ec, .finished r)

/-- Resume invocation A (`false`) or B (`true`) for one segment. -/
def stepOne (env : PolicyEnv) (gs : ConcState) (i : Bool) : ConcState :=
  if i then
    let (sh, fc, ec, ph) := stepTask env gs.shared gs.fetchCount gs.extractCount gs.taskB
    { gs with shared := sh, fetchCount := fc, extractCount := ec, taskB := ph }
  else
    let (sh, fc, ec, ph) := stepTask env gs.shared gs.fetchCount gs.extractCount gs.taskA
    { gs with shared := sh, fetchCount := fc, extractCount := ec, taskA := ph }

/-- Run a schedule (the resumption order chosen by the event loop). -/
def runSched (env : PolicyEnv) : List Bool → ConcState → ConcState
  | [], gs => gs
  | i :: rest, gs => runSched env rest (stepOne env gs i)

/-- Two invocations started while the cache is empty. -/
def concInit : ConcState :=
  { shared := none, fetchCount := 0, extractCount := 0, taskA := .ready, taskB := .ready }

/-- The schedule `Promise.all([getPolicies(), getPolicies()])` produces:
both synchronous prologues run before either fetch resolves. -/
def concSched : List Bool := [false, true, false, false, true, true]

/-! ## Concrete instances

Model responses actually producible by the services, and a `JSON.parse`
oracle consistent with real JSON syntax on exactly these strings. -/

/-- A well-formed violation entry. -/
def vioC1 : Json :=
  .obj [("category", .str "Deceptive Practices"),
        ("description", .str "Guaranteed returns claim"), ("severity", .str "high")]

/-- A verdict with `violated: false` yet one (well-formed) violation. -/
def jFalseNE : Json :=
  .obj [("violated", .bool false), ("violations", .arr [vioC1] []),
        ("reasoning", .str "found issues")]

/-- A verdict with `violated: true` yet an empty violations array. -/
def jTrueEmpty : Json :=
  .obj [("violated", .bool true), ("violations", .arr ([] : List Json) []),
        ("reasoning", .str "ok")]

/-- The JSON text of `jFalseNE`. -/
def tFalseNE : String :=
  "\x7b\"violated\":false,\"violations\":[\x7b\"category\":\"Deceptive Practices\",\"description\":\"Guaranteed returns claim\",\"severity\":\"high\"\x7d],\"reasoning\":\"found issues\"\x7d"

/-- The characters of `tFalseNE` strictly between the outer braces. -/
def midFalseNE : String :=
  "\"violated\":false,\"violations\":[\x7b\"category\":\"Deceptive Practices\",\"description\":\"Guaranteed returns claim\",\"severity\":\"high\"\x7d],\"reasoning\":\"found issues\""

/-- The JSON text of `jTrueEmpty`. -/
def tTrueEmpty : String :=
  "\x7b\"violated\":true,\"violations\":[],\"reasoning\":\"ok\"\x7d"

/-- A structured summarizer response. -/
def jSum : Json :=
  .obj [("summary", .str "A calm product demo"), ("keyPoints", .arr [.str "demo"] [])]

/-- The JSON text of `jSum`. -/
def tSum : String :=
  "\x7b\"summary\":\"A calm product demo\",\"keyPoints\":[\"demo\"]\x7d"

/-- A `JSON.parse` oracle agreeing with JavaScript on every string the
concrete scenarios feed it. -/
def pW (s : String) : Except String Json :=
  if s = tFalseNE then .ok jFalseNE
  else if s = tTrueEmpty then .ok jTrueEmpty
  else if s = tSum then .ok jSum
  else if s = "[1]" then .ok (.arr [.num 1] [])
  else if s = "null" then .ok Json.null
  else if s = "\x7b\x7d" then .ok (.obj [])
  else .error "Unexpected token in JSON"

/-- A fresh dynamic-checker instance. -/
def pcInit : PCState := { cachedPolicies := none, fetchCount := 0, extractCount := 0 }

/-- A healthy environment: the fetch succeeds and Claude returns the policy
array text `[1]`. -/
def envGood : PolicyEnv :=
  { parse := pW, fetchResult := fun _ => .ok "<html>page</html>",
    htmlToText := fun _ => "page", claudeResp := fun _ _ => .ok "[1]" }

/-- An environment whose extraction call returns the JSON text `null`:
`JSON.parse` succeeds, and the stored verdict is falsy. -/
def envNull : PolicyEnv :=
  { parse := pW, fetchResult := fun _ => .ok "<html>page</html>",
    htmlToText := fun _ => "page", claudeResp := fun _ _ => .ok "null" }

/-- A validated 2KB PNG upload. -/
def fsiW : FsInfo :=
  { pathExists := true, isFile := true, size := 2048, mimeLookup := some "image/png" }

/-- The upload info echoed by the server. -/
def fiW : FileInfoR :=
  { originalName := "ad.png", filename := "file-1-2.png", fileSize := 2048,
    fileType := "image", uploadDate := "2024-01-01T00:00:00.000Z" }

/-- A successful analysis result feeding the policy stage. -/
def arW : AnalyzeResult :=
  { success := true,
    data := some (.obj [("summary", .str "A calm product demo"),
                        ("keyPoints", .arr [.str "demo"] []),
                        ("fileMetadata", fileMetadata "media/file-1-2.png" "image/png" 2048
                                           "image" "2024-01-01T00:00:00.000Z")]),
    errorMsg := none }

/-- A model response with no JSON anywhere (not even a brace). -/
def tPlain : String := "The content seems fine."

/-- The characters of `tSum` strictly between the outer braces. -/
def midSum : String := "\"summary\":\"A calm product demo\",\"keyPoints\":[\"demo\"]"

/-! ## Helper lemmas -/

/-- Setting one key leaves every other key unchanged. -/
theorem getKey_setKey_ne (fields : List (String × Json)) (k : String) (v : Json)
    (key : String) (h : key ≠ k) : getKey (setKey fields k v) key = getKey fields key := by
  induction fields with
  | nil => simp [getKey, setKey, Ne.symm h]
  | cons hd rest ih =>
      obtain ⟨k1, w⟩ := hd
      by_cases hk : k1 = k
      · subst hk
        simp [getKey, setKey, Ne.symm h]
      · by_cases hq : k1 = key
        · subst hq
          simp [getKey, setKey, hk]
        · simp [getKey, setKey, hk, hq, ih]

/-- Setting a key makes it present with the new value. -/
theorem getKey_setKey_self (fields : List (String × Json)) (k : String) (v : Json) :
    getKey (setKey fields k v) k = some v := by
  induction fields with
  | nil => simp [getKey, setKey]
  | cons hd rest ih =>
      obtain ⟨k1, w⟩ := hd
      by_cases hk : k1 = k
      · subst hk
        simp [getKey, setKey]
      · simp [getKey, setKey, hk, ih]

/-- `validateViolations` accepts exactly the lists all of whose entries are
`violOk`, independently of the running index. -/
theorem validateViolations_ok_iff (vs : List Json) : ∀ i : Nat,
    validateViolations vs i = .ok () ↔ vs.all violOk = true := by
  induction vs with
  | nil => intro i; simp [validateViolations]
  | cons v rest ih =>
      intro i
      by_cases h0 : isNullJ v = true
      · simp [validateViolations, violOk, h0]
      · by_cases h1 : (truthyOpt (v.getField "category") &&
                        truthyOpt (v.getField "description")) = true
        · by_cases h2 : severityOk (v.getField "severity") = true
          · simp [validateViolations, violOk, h0, h1, h2, ih]
          · simp [validateViolations, violOk, h0, h1, h2]
        · simp [validateViolations, violOk, h0, h1]

/-- `validateResponse` accepts exactly the verdicts of valid shape. -/
theorem validateResponse_ok_iff (j : Json) :
    validateResponse j = .ok () ↔ verdictShapeOk j = true := by
  cases j with
  | null => simp [validateResponse, verdictShapeOk, truthy, typeofObject, Json.getField,
                  isBoolField]
  | bool b => cases b <;>
      simp [validateResponse, verdictShapeOk, truthy, typeofObject, Json.getField, isBoolField]
  | num n =>
      by_cases hn : n = 0 <;>
        simp [validateResponse, verdictShapeOk, truthy, typeofObject, Json.getField,
              isBoolField, hn]
  | str s =>
      by_cases hs : s = "" <;>
        simp [validateResponse, verdictShapeOk, truthy, typeofObject, Json.getField,
              isBoolField, hs]
  | arr xs ps =>
      simp only [validateResponse, verdictShapeOk, truthy, typeofObject, Bool.and_true,
                 Bool.not_true, Bool.false_eq_true, if_false]
      by_cases hb : isBoolField (Json.getField (.arr xs ps) "violated") = true
      · rcases ha : arrOf (Json.getField (.arr xs ps) "violations") with _ | vs
        · simp [hb, ha]
        · simp [hb, ha, validateViolations_ok_iff]
      · simp [hb]
  | obj fields =>
      simp only [validateResponse, verdictShapeOk, truthy, typeofObject, Bool.and_true,
                 Bool.not_true, Bool.false_eq_true, if_false]
      by_cases hb : isBoolField (Json.getField (.obj fields) "violated") = true
      · rcases ha : arrOf (Json.getField (.obj fields) "violations") with _ | vs
        · simp [hb, ha]
        · simp [hb, ha, validateViolations_ok_iff]
      · simp [hb]

/-- A text that is exactly a brace-wrapped block is its own brace match. -/
theorem braceMatch_wrapped (s : String) (mid : List Char)
    (h : s.data = '{' :: mid ++ ['}']) : braceMatch s = some s := by
  have h1 : spanFrom '{' '}' s.data = some s.data := by
    rw [h]
    simp [spanFrom, List.dropWhile_cons]
  simp [braceMatch, h1]

/-- `isBoolField` characterized. -/
theorem isBoolField_iff (o : Option Json) : isBoolField o = true ↔ ∃ b, o = some (.bool b) := by
  rcases o with _ | j
  · simp [isBoolField]
  · cases j <;> simp [isBoolField]

/-- `arrOf` characterized: an array with some (possibly empty) expando
property list. -/
theorem arrOf_eq_some (o : Option Json) (vs : List Json) :
    arrOf o = some vs ↔ ∃ props, o = some (.arr vs props) := by
  rcases o with _ | j
  · simp [arrOf]
  · cases j <;> simp [arrOf]

/-- Unpacking a valid verdict shape into its field facts. -/
theorem verdictShapeOk_unpack (j : Json) (h : verdictShapeOk j = true) :
    (∃ b, j.getField "violated" = some (.bool b)) ∧
    (∃ vs props, j.getField "violations" = some (.arr vs props) ∧ vs.all violOk = true) := by
  unfold verdictShapeOk at h
  rw [Bool.and_eq_true] at h
  refine ⟨(isBoolField_iff _).mp h.1, ?_⟩
  rcases ha : arrOf (j.getField "violations") with _ | vs
  · rw [ha] at h
    exact absurd h.2 (by simp)
  · rw [ha] at h
    obtain ⟨props, hp⟩ := (arrOf_eq_some _ _).mp ha
    exact ⟨vs, props, hp, h.2⟩

/-- Full evaluation of `checkPolicy` on the standard reachable
configuration (loaded non-empty policy, valid summary, a brace match that
parses): it succeeds with exactly the parsed verdict when the shape is
valid, and fails touching no data otherwise. -/
theorem checkPolicy_run (parse : String → Except String Json)
    (fileRead : Except String String) (now : String) (c : String) (hc : c ≠ "")
    (s : String) (hs : validateInput (some (.str s)) = .ok s)
    (text m : String) (hm : braceMatch text = some m)
    (j : Json) (hj : parse m = .ok j) :
    (verdictShapeOk j = true →
       checkPolicy parse fileRead (.ok text) now { policyContent := some c }
           (some (.str s)) none
         = ({ success := true, data := some j, error := none, timestamp := now },
            { policyContent := some c })) ∧
    (verdictShapeOk j = false →
       (checkPolicy parse fileRead (.ok text) now { policyContent := some c }
           (some (.str s)) none).1.success = false ∧
       (checkPolicy parse fileRead (.ok text) now { policyContent := some c }
           (some (.str s)) none).1.data = none) := by
  constructor
  · intro hshape
    have hv : validateResponse j = .ok () := (validateResponse_ok_iff j).mpr hshape
    simp [checkPolicy, hs, hc, hm, hj, hv]
  · intro hshape
    rcases hv : validateResponse j with e | u
    · constructor <;> simp [checkPolicy, hs, hc, hm, hj, hv]
    · cases u
      exact absurd ((validateResponse_ok_iff j).mp hv) (by simp [hshape])

/-- A successful `getPolicies` call leaves its result in the cache. -/
theorem getPolicies_ok_state (env : PolicyEnv) (st : PCState) (p : Json)
    (h : (getPolicies env st).1 = .ok p) :
    (getPolicies env st).2.cachedPolicies = some p := by
  by_cases hct : cacheTruthy st.cachedPolicies = true
  · rcases hcp : st.cachedPolicies with _ | j
    · rw [hcp] at hct
      simp [cacheTruthy] at hct
    · have hct2 : cacheTruthy (some j) = true := hcp ▸ hct
      have h2 : getPolicies env st = (.ok j, st) := by
        simp [getPolicies, hcp, hct2]
      rw [h2] at h
      have hj : j = p := by simpa using h
      rw [h2]
      show st.cachedPolicies = some p
      rw [hcp, hj]
  · rcases hf : env.fetchResult st.fetchCount with e | html
    · simp [getPolicies, hct, hf] at h
    · rcases he : extractPolicies env.parse
          (env.claudeResp st.extractCount (env.htmlToText html)) with e | pols
      · simp [getPolicies, hct, hf, he] at h
      · simp [getPolicies, hct, hf, he] at h ⊢
        rw [h]

/-! ## The claims -/

/-- C6 (counterexample): when the Claude extraction returns the JSON text
`null`, both sequential `getPolicies` calls succeed with the verdict
`null`, the stored value is falsy, and the second call re-invokes the
fetch and the extraction: two fetches and two extractions in total, not at
most one. -/
theorem getPolicies_refetches_after_falsy_cache :
    (getPolicies envNull pcInit).1 = .ok Json.null ∧
    (getPolicies envNull (getPolicies envNull pcInit).2).1 = .ok Json.null ∧
    (getPolicies envNull (getPolicies envNull pcInit).2).2.fetchCount = 2 ∧
    (getPolicies envNull (getPolicies envNull pcInit).2).2.extractCount = 2 ∧
    ¬ (getPolicies envNull (getPolicies envNull pcInit).2).2.fetchCount ≤ 1 :=
  ⟨rfl, rfl, rfl, rfl, by decide⟩

/-- C6 (amended): when the first `getPolicies` call returns a truthy policy
value (any JSON array, the expected shape, is truthy), a second sequential
call without invalidation returns the same stored PolicySet and leaves the
state — in particular the fetch and extraction counters — unchanged. -/
theorem getPolicies_truthy_cache_idempotent (env : PolicyEnv) (st : PCState) (p : Json)
    (h1 : (getPolicies env st).1 = .ok p) (h2 : truthy p = true) :
    getPolicies env (getPolicies env st).2 = (.ok p, (getPolicies env st).2) := by
  have hcp := getPolicies_ok_state env st p h1
  set st2 := (getPolicies env st).2 with hst2
  have hctp : cacheTruthy (some p) = true := by
    simpa [cacheTruthy] using h2
  simp [getPolicies, hcp, hctp]

/-- C6 (amended) witness: in the healthy environment the first call caches
the policy array `[1]` and the second call returns it with no further
fetch or extraction. -/
theorem getPolicies_truthy_cache_idempotent_witness :
    getPolicies envGood (getPolicies envGood pcInit).2
      = (.ok (.arr [.num 1] []), (getPolicies envGood pcInit).2) ∧
    (getPolicies envGood pcInit).2.fetchCount = 1 ∧
    (getPolicies envGood pcInit).2.extractCount = 1 :=
  ⟨getPolicies_truthy_cache_idempotent envGood pcInit (.arr [.num 1] []) rfl rfl, rfl, rfl⟩

/-- C7 (counterexample): under the schedule produced by two concurrent
`getPolicies` calls on the uncached instance — both synchronous prologues
run before either completion — both callers do receive the same PolicySet,
but two fetches and two extractions are triggered, not exactly one. -/
theorem concurrent_getPolicies_double_fetch :
    (runSched envGood concSched concInit).taskA = .finished (.ok (.arr [.num 1] [])) ∧
    (runSched envGood concSched concInit).taskB = .finished (.ok (.arr [.num 1] [])) ∧
    (runSched envGood concSched concInit).fetchCount = 2 ∧
    (runSched envGood concSched concInit).extractCount = 2 ∧
    ¬ (runSched envGood concSched concInit).fetchCount ≤ 1 :=
  ⟨rfl, rfl, rfl, rfl, by decide⟩

/-- C7 (amended): two concurrent `getPolicies` calls that both run their
cache check while the key is uncached trigger one fetch and one extraction
each — two of each in total, with no single-flight coalescing — and each
caller receives the result of its own extraction call. -/
theorem concurrent_getPolicies_one_fetch_each (env : PolicyEnv)
    (html0 html1 : String) (p0 p1 : Json)
    (hf0 : env.fetchResult 0 = .ok html0) (hf1 : env.fetchResult 1 = .ok html1)
    (he0 : extractPolicies env.parse (env.claudeResp 0 (env.htmlToText html0)) = .ok p0)
    (he1 : extractPolicies env.parse (env.claudeResp 1 (env.htmlToText html1)) = .ok p1) :
    runSched env concSched concInit
      = { shared := some p1, fetchCount := 2, extractCount := 2,
          taskA := .finished (.ok p0), taskB := .finished (.ok p1) } := by
  simp [runSched, concSched, concInit, stepOne, stepTask, cacheTruthy, hf0, hf1, he0, he1]

/-- C7 (amended) witness: the healthy environment instantiates the
schedule, with both extractions returning the policy array `[1]`. -/
theorem concurrent_getPolicies_one_fetch_each_witness :
    runSched envGood concSched concInit
      = { shared := some (.arr [.num 1] []), fetchCount := 2, extractCount := 2,
          taskA := .finished (.ok (.arr [.num 1] [])),
          taskB := .finished (.ok (.arr [.num 1] [])) } :=
  concurrent_getPolicies_one_fetch_each envGood "<html>page</html>" "<html>page</html>"
    (.arr [.num 1] []) (.arr [.num 1] []) rfl rfl rfl rfl

/-- C2: whenever the Gemini analysis succeeded and the policy stage failed
— for any reason — the `/summarize` handler still answers 201 with
`success: true`, the populated analysis block (summary, key points, file
metadata from the analysis result), and a `policyCheck` block of the form
`error: "Policy analysis failed"` with the failure message as `details`;
the evaluation failure never becomes an overall request failure. -/
theorem summarizeHandler_degrades_policy_failure (parse : String → Except String Json)
    (fi : FileInfoR) (ar : AnalyzeResult) (fileRead polGen : Except String String)
    (now : String) (hok : ar.success = true) (m : String)
    (hfail : policyStage parse fileRead polGen now
        (ar.data.bind (Json.getField · "summary")) = .error m) :
    summarizeHandler parse fi ar fileRead polGen now
      = { status := 201, success := true,
          message := capitalize fi.fileType ++ " analyzed successfully, but policy check failed",
          fileInfo := some fi,
          analysis := some (ar.data.bind (Json.getField · "summary"),
                            ar.data.bind (Json.getField · "keyPoints"),
                            ar.data.bind (Json.getField · "fileMetadata")),
          policyCheck := some (.failed "Policy analysis failed" m),
          errorCode := none, details := none } := by
  simp [summarizeHandler, hok, hfail]

/-- C2 witness: a concrete request whose Gemini stage succeeded and whose
policy model response carried no JSON. -/
theorem summarizeHandler_degrades_policy_failure_witness :
    (summarizeHandler pW fiW arW (.ok "policy body") (.ok "I cannot help with that")
        "2024-01-01T00:00:00.000Z").success = true ∧
    (summarizeHandler pW fiW arW (.ok "policy body") (.ok "I cannot help with that")
        "2024-01-01T00:00:00.000Z").policyCheck
      = some (.failed "Policy analysis failed"
          ("Policy analysis failed: " ++
           "Failed to parse AI response as JSON: No valid JSON found in response")) := by
  have h := summarizeHandler_degrades_policy_failure pW fiW arW (.ok "policy body")
    (.ok "I cannot help with that") "2024-01-01T00:00:00.000Z" rfl
    ("Policy analysis failed: " ++
     "Failed to parse AI response as JSON: No valid JSON found in response") rfl
  rw [h]
  exact ⟨rfl, rfl⟩

/-- C8: on the reachable configuration (valid summary, loaded non-empty
policy, Gemini response whose brace match parses to the verdict `j`),
`checkPolicy` succeeds exactly when `j` has a boolean `violated`, an array
`violations`, and every entry carries a truthy category and description
and a severity in high/medium/low; any other shape yields a failure. -/
theorem checkPolicy_success_iff_verdict_shape (parse : String → Except String Json)
    (fileRead : Except String String) (now : String) (c : String) (hc : c ≠ "")
    (s : String) (hs : validateInput (some (.str s)) = .ok s)
    (text m : String) (hm : braceMatch text = some m)
    (j : Json) (hj : parse m = .ok j) :
    (checkPolicy parse fileRead (.ok text) now { policyContent := some c }
        (some (.str s)) none).1.success = verdictShapeOk j := by
  rcases hsh : verdictShapeOk j with _ | _
  · exact ((checkPolicy_run parse fileRead now c hc s hs text m hm j hj).2 hsh).1
  · rw [(checkPolicy_run parse fileRead now c hc s hs text m hm j hj).1 hsh]

/-- C8 witness: a well-shaped verdict is accepted. -/
theorem checkPolicy_success_iff_verdict_shape_witness :
    (checkPolicy pW (.ok "policy body") (.ok tTrueEmpty) "2024-01-01T00:00:00.000Z"
        { policyContent := some "policy body" } (some (.str "my ad")) none).1.success
      = true := by
  have h := checkPolicy_success_iff_verdict_shape pW (.ok "policy body")
    "2024-01-01T00:00:00.000Z" "policy body" (by decide) "my ad" rfl
    tTrueEmpty tTrueEmpty rfl jTrueEmpty rfl
  exact h.trans rfl

/-- C1 (counterexample): `validateResponse` checks only field-level shape,
so `checkPolicy` accepts both a verdict with `violated: false` and a
non-empty violations array and a verdict with `violated: true` and an
empty one, returning them with `success: true`. -/
theorem checkPolicy_accepts_inconsistent_verdicts :
    ((checkPolicy pW (.ok "policy body") (.ok tFalseNE) "2024-01-01T00:00:00.000Z"
        { policyContent := some "policy body" } (some (.str "my ad")) none).1.success
       = true ∧
     (checkPolicy pW (.ok "policy body") (.ok tFalseNE) "2024-01-01T00:00:00.000Z"
        { policyContent := some "policy body" } (some (.str "my ad")) none).1.data
       = some jFalseNE ∧
     jFalseNE.getField "violated" = some (.bool false) ∧
     jFalseNE.getField "violations" = some (.arr [vioC1] []) ∧
     Json.arr [vioC1] [] ≠ Json.arr [] []) ∧
    ((checkPolicy pW (.ok "policy body") (.ok tTrueEmpty) "2024-01-01T00:00:00.000Z"
        { policyContent := some "policy body" } (some (.str "my ad")) none).1.success
       = true ∧
     (checkPolicy pW (.ok "policy body") (.ok tTrueEmpty) "2024-01-01T00:00:00.000Z"
        { policyContent := some "policy body" } (some (.str "my ad")) none).1.data
       = some jTrueEmpty ∧
     jTrueEmpty.getField "violated" = some (.bool true) ∧
     jTrueEmpty.getField "violations" = some (.arr ([] : List Json) [])) :=
  ⟨⟨rfl, rfl, rfl, rfl, by simp⟩, rfl, rfl, rfl, rfl⟩

/-- C1 (amended): every verdict returned by an accepted (success) run of
`checkPolicy` has a boolean `violated` and an array of violations whose
every entry carries a truthy category and description and a valid
severity; but no consistency between `violated` and the emptiness of
`violations` is enforced, so both inconsistent combinations can be
returned. -/
theorem checkPolicy_accepted_verdict_shape (parse : String → Except String Json)
    (fileRead : Except String String) (now : String) (c : String) (hc : c ≠ "")
    (s : String) (hs : validateInput (some (.str s)) = .ok s)
    (text m : String) (hm : braceMatch text = some m)
    (j : Json) (hj : parse m = .ok j)
    (hsucc : (checkPolicy parse fileRead (.ok text) now { policyContent := some c }
        (some (.str s)) none).1.success = true) :
    (checkPolicy parse fileRead (.ok text) now { policyContent := some c }
        (some (.str s)) none).1.data = some j ∧
    (∃ b, j.getField "violated" = some (.bool b)) ∧
    (∃ vs props, j.getField "violations" = some (.arr vs props) ∧ vs.all violOk = true) := by
  rcases hsh : verdictShapeOk j with _ | _
  · exact absurd hsucc
      (by simp [((checkPolicy_run parse fileRead now c hc s hs text m hm j hj).2 hsh).1])
  · have hrun := (checkPolicy_run parse fileRead now c hc s hs text m hm j hj).1 hsh
    rw [hrun]
    exact ⟨rfl, verdictShapeOk_unpack j hsh⟩

/-- C1 (amended) witness: the accepted well-shaped verdict from the
counterexample environment. -/
theorem checkPolicy_accepted_verdict_shape_witness :
    (checkPolicy pW (.ok "policy body") (.ok tFalseNE) "2024-01-01T00:00:00.000Z"
        { policyContent := some "policy body" } (some (.str "my ad")) none).1.data
      = some jFalseNE ∧
    (∃ b, jFalseNE.getField "violated" = some (.bool b)) ∧
    (∃ vs props, jFalseNE.getField "violations" = some (.arr vs props) ∧
       vs.all violOk = true) :=
  checkPolicy_accepted_verdict_shape pW (.ok "policy body") "2024-01-01T00:00:00.000Z"
    "policy body" (by decide) "my ad" rfl tFalseNE tFalseNE rfl jFalseNE rfl rfl

/-- C4: when neither the whole response text nor its brace-matched
substring parses as JSON, the Gemini `checkPolicy` returns a failure
(whatever the instance state and summary), and the Claude
`checkCompliance` throws (returns an error); neither fabricates a default
verdict. -/
theorem unparseable_verdict_fails_both_checkers (p : String → Except String Json)
    (t : String) (hdirect : ∃ e, p t = .error e)
    (hbrace : ∀ m, braceMatch t = some m → ∃ e, p m = .error e) :
    (∀ fileRead now st summary pfp,
       (checkPolicy p fileRead (.ok t) now st summary pfp).1.success = false) ∧
    (∀ env st adSummary, env.parse = p →
       ∃ e st1, checkCompliance env (.ok t) st adSummary = (.error e, st1)) := by
  constructor
  · intro fileRead now st summary pfp
    rcases hvi : validateInput summary with e | s
    · simp [checkPolicy, hvi]
    · simp only [checkPolicy, hvi]
      split
      · rfl
      · rcases hbm : braceMatch t with _ | m
        · simp [hbm]
        · obtain ⟨e2, hpm⟩ := hbrace m hbm
          simp [hbm, hpm]
  · intro env st adSummary hp
    cases adSummary with
    | none => exact ⟨_, _, rfl⟩
    | some j =>
        cases j with
    | null => exact ⟨_, _, rfl⟩
    | bool b => exact ⟨_, _, rfl⟩
    | num n => exact ⟨_, _, rfl⟩
    | arr xs ps => exact ⟨_, _, rfl⟩
    | obj fs => exact ⟨_, _, rfl⟩
    | str s =>
        by_cases hs : s = ""
        · subst hs
          exact ⟨_, _, rfl⟩
        · rcases hgp : getPolicies env st with ⟨r, st2⟩
          rcases r with e | pols
          · exact ⟨"Failed to check compliance: " ++ e, st2,
              by simp [checkCompliance, hs, hgp]⟩
          · obtain ⟨e1, hpt⟩ := hdirect
            rcases hbm : braceMatch t with _ | m
            · exact ⟨"Failed to check compliance: " ++
                  "Failed to parse compliance result JSON from Claude response", st2,
                by simp [checkCompliance, hs, hgp, hp, hpt, hbm]⟩
            · obtain ⟨e2, hpm⟩ := hbrace m hbm
              exact ⟨"Failed to check compliance: " ++ e2, st2,
                by simp [checkCompliance, hs, hgp, hp, hpt, hbm, hpm]⟩

/-- C4 witness: a braceless response fails both checkers. -/
theorem unparseable_verdict_fails_both_checkers_witness :
    (checkPolicy pW (.ok "policy body") (.ok tPlain) "2024-01-01T00:00:00.000Z"
        { policyContent := some "policy body" } (some (.str "my ad")) none).1.success
      = false ∧
    (∃ e st1, checkCompliance envGood (.ok tPlain) pcInit (some (.str "my ad"))
      = (.error e, st1)) := by
  have h := unparseable_verdict_fails_both_checkers pW tPlain
    ⟨"Unexpected token in JSON", rfl⟩
    (fun m hm => by
      rw [show braceMatch tPlain = none from rfl] at hm
      exact Option.noConfusion hm)
  exact ⟨h.1 _ _ _ _ _, h.2 envGood pcInit (some (.str "my ad")) rfl⟩

/-- C3: after a successful service call, when neither the whole response
text nor its brace-matched substring parses, `analyzeMultimedia` still
succeeds, with the raw trimmed text as summary and the single sentinel
key-point entry. -/
theorem analyzeMultimedia_fallback_on_unparseable (parse : String → Except String Json)
    (fsi : FsInfo) (b64 text now filePath prompt : String) (mt : String) (sz : Nat)
    (mdt : String)
    (hin : validateMediaInput filePath prompt = .ok ())
    (hfile : validateMultimediaFile fsi filePath = .ok (mt, sz, mdt))
    (hdirect : ∃ e, parse text = .error e)
    (hbrace : ∀ m, braceMatch text = some m → ∃ e, parse m = .error e) :
    (analyzeMultimedia parse fsi (.ok b64) (.ok text) now filePath prompt).success = true ∧
    (analyzeMultimedia parse fsi (.ok b64) (.ok text) now filePath prompt).data.bind
        (Json.getField · "summary") = some (.str (trimStr text)) ∧
    (analyzeMultimedia parse fsi (.ok b64) (.ok text) now filePath prompt).data.bind
        (Json.getField · "keyPoints")
      = some (.arr [.str "Raw analysis response provided"] []) := by
  obtain ⟨e1, hpt⟩ := hdirect
  rcases hbm : braceMatch text with _ | m
  · refine ⟨?_, ?_, ?_⟩ <;>
      simp [analyzeMultimedia, hin, hfile, hpt, hbm, Json.setField, setKey,
            Json.getField, getKey]
  · obtain ⟨e2, hpm⟩ := hbrace m hbm
    refine ⟨?_, ?_, ?_⟩ <;>
      simp [analyzeMultimedia, hin, hfile, hpt, hbm, hpm, Json.setField, setKey,
            Json.getField, getKey]

/-- C3 witness: the summarizer degrades a plain-text model answer into a
successful raw-text analysis. -/
theorem analyzeMultimedia_fallback_on_unparseable_witness :
    (analyzeMultimedia pW fsiW (.ok "b64") (.ok tPlain) "2024-01-01T00:00:00.000Z"
        "media/file-1-2.png" "Analyze the ad").success = true ∧
    (analyzeMultimedia pW fsiW (.ok "b64") (.ok tPlain) "2024-01-01T00:00:00.000Z"
        "media/file-1-2.png" "Analyze the ad").data.bind (Json.getField · "summary")
      = some (.str (trimStr tPlain)) :=
  have h := analyzeMultimedia_fallback_on_unparseable pW fsiW "b64" tPlain
    "2024-01-01T00:00:00.000Z" "media/file-1-2.png" "Analyze the ad" "image/png" 2048
    "image" rfl rfl ⟨"Unexpected token in JSON", rfl⟩
    (fun m hm => by
      rw [show braceMatch tPlain = none from rfl] at hm
      exact Option.noConfusion hm)
  ⟨h.1, h.2.1⟩

/-- C5: when the entire response text is a well-formed JSON object, both
consumers round-trip it verbatim: `analyzeMultimedia` preserves the
`summary` and `keyPoints` fields of the parsed object unchanged, and
`checkPolicy` (whose regex match is then the whole text) returns exactly
the parsed verdict as its `data` when it has the expected shape. -/
theorem wellformed_json_roundtrip (parse : String → Except String Json)
    (text : String) (mid : List Char) (j : Json)
    (hdata : text.data = '{' :: mid ++ ['}'])
    (hparse : parse text = .ok j) :
    (∀ (fsi : FsInfo) (b64 now filePath prompt mt : String) (sz : Nat) (mdt : String)
       (fields : List (String × Json)),
       validateMediaInput filePath prompt = .ok () →
       validateMultimediaFile fsi filePath = .ok (mt, sz, mdt) →
       j = .obj fields →
       (analyzeMultimedia parse fsi (.ok b64) (.ok text) now filePath prompt).data.bind
           (Json.getField · "summary") = j.getField "summary" ∧
       (analyzeMultimedia parse fsi (.ok b64) (.ok text) now filePath prompt).data.bind
           (Json.getField · "keyPoints") = j.getField "keyPoints") ∧
    (∀ (fileRead : Except String String) (now c s : String), c ≠ "" →
       validateInput (some (.str s)) = .ok s → verdictShapeOk j = true →
       (checkPolicy parse fileRead (.ok text) now { policyContent := some c }
           (some (.str s)) none).1
         = { success := true, data := some j, error := none, timestamp := now }) := by
  constructor
  · intro fsi b64 now filePath prompt mt sz mdt fields hin hfile hobj
    subst hobj
    have hrun : analyzeMultimedia parse fsi (.ok b64) (.ok text) now filePath prompt
        = { success := true,
            data := some (.obj (setKey fields "fileMetadata"
                                  (fileMetadata filePath mt sz mdt now))),
            errorMsg := none } := by
      simp [analyzeMultimedia, hin, hfile, hparse, Json.setField]
    rw [hrun]
    constructor
    · show Json.getField (.obj (setKey fields "fileMetadata" _)) "summary" = _
      show getKey (setKey fields "fileMetadata" _) "summary" = getKey fields "summary"
      exact getKey_setKey_ne fields "fileMetadata" _ "summary" (by decide)
    · show Json.getField (.obj (setKey fields "fileMetadata" _)) "keyPoints" = _
      show getKey (setKey fields "fileMetadata" _) "keyPoints" = getKey fields "keyPoints"
      exact getKey_setKey_ne fields "fileMetadata" _ "keyPoints" (by decide)
  · intro fileRead now c s hc hs hshape
    have hbm : braceMatch text = some text := braceMatch_wrapped text mid hdata
    have hrun := (checkPolicy_run parse fileRead now c hc s hs text text hbm j hparse).1 hshape
    exact congrArg Prod.fst hrun

/-- C5 witness: the structured summarizer response round-trips, and the
well-shaped verdict text is returned verbatim. -/
theorem wellformed_json_roundtrip_witness :
    (analyzeMultimedia pW fsiW (.ok "b64") (.ok tSum) "2024-01-01T00:00:00.000Z"
        "media/file-1-2.png" "Analyze the ad").data.bind (Json.getField · "summary")
      = some (.str "A calm product demo") ∧
    (checkPolicy pW (.ok "policy body") (.ok tFalseNE) "2024-01-01T00:00:00.000Z"
        { policyContent := some "policy body" } (some (.str "my ad")) none).1
      = { success := true, data := some jFalseNE, error := none,
          timestamp := "2024-01-01T00:00:00.000Z" } := by
  have h1 := ((wellformed_json_roundtrip pW tSum midSum.data jSum (by decide) rfl).1
    fsiW "b64" "2024-01-01T00:00:00.000Z" "media/file-1-2.png" "Analyze the ad"
    "image/png" 2048 "image" _ rfl rfl rfl).1
  have h2 := (wellformed_json_roundtrip pW tFalseNE midFalseNE.data jFalseNE
    (by decide) rfl).2 (.ok "policy body") "2024-01-01T00:00:00.000Z" "policy body"
    "my ad" (by decide) rfl rfl
  exact ⟨h1.trans rfl, h2⟩

/-- Every successful `analyzeMultimedia` run carries the metadata object
computed from the validated file facts and the path. -/
theorem analyzeMultimedia_meta (parse : String → Except String Json) (fsi : FsInfo)
    (rr gen : Except String String) (now filePath prompt mt : String) (sz : Nat)
    (mdt : String)
    (hfile : validateMultimediaFile fsi filePath = .ok (mt, sz, mdt))
    (hsucc : (analyzeMultimedia parse fsi rr gen now filePath prompt).success = true) :
    (analyzeMultimedia parse fsi rr gen now filePath prompt).data.bind
        (Json.getField · "fileMetadata") = some (fileMetadata filePath mt sz mdt now) := by
  rcases hin : validateMediaInput filePath prompt with e | u
  · simp [analyzeMultimedia, hin] at hsucc
  · cases u
    rcases rr with e | b64
    · simp [analyzeMultimedia, hin, hfile] at hsucc
    · rcases gen with e | text
      · simp [analyzeMultimedia, hin, hfile] at hsucc
      · rcases hpt : parse text with e1 | j
        · rcases hbm : braceMatch text with _ | m
          · simp [analyzeMultimedia, hin, hfile, hpt, hbm, Json.setField,
                  Json.getField, getKey_setKey_self]
          · rcases hpm : parse m with e2 | j2
            · simp [analyzeMultimedia, hin, hfile, hpt, hbm, hpm, Json.setField,
                    Json.getField, getKey_setKey_self]
            · cases j2 <;>
                simp [analyzeMultimedia, hin, hfile, hpt, hbm, hpm, Json.setField,
                      Json.getField, getKey_setKey_self] at hsucc ⊢
        · cases j <;>
            simp [analyzeMultimedia, hin, hfile, hpt, Json.setField,
                  Json.getField, getKey_setKey_self] at hsucc ⊢

/-- C9: the `fileMetadata` of every successful analysis is computed from
the validated file facts and the path alone — equal to the canonical
metadata object — so any two successful runs differing only in the model
response (or even in the parse oracle and read outcome) carry identical
`fileName`, `fileSize`, `mimeType` and `mediaType`. -/
theorem fileMetadata_from_file_only (parse : String → Except String Json) (fsi : FsInfo)
    (rr gen : Except String String) (now filePath prompt mt : String) (sz : Nat)
    (mdt : String)
    (hfile : validateMultimediaFile fsi filePath = .ok (mt, sz, mdt))
    (hsucc : (analyzeMultimedia parse fsi rr gen now filePath prompt).success = true) :
    (analyzeMultimedia parse fsi rr gen now filePath prompt).data.bind
        (Json.getField · "fileMetadata") = some (fileMetadata filePath mt sz mdt now) ∧
    (fileMetadata filePath mt sz mdt now).getField "fileName"
      = some (.str (basename filePath)) ∧
    (fileMetadata filePath mt sz mdt now).getField "fileSize" = some (.num sz) ∧
    (fileMetadata filePath mt sz mdt now).getField "mimeType" = some (.str mt) ∧
    (fileMetadata filePath mt sz mdt now).getField "mediaType" = some (.str mdt) ∧
    (∀ (parse2 : String → Except String Json) (rr2 gen2 : Except String String),
       (analyzeMultimedia parse2 fsi rr2 gen2 now filePath prompt).success = true →
       (analyzeMultimedia parse2 fsi rr2 gen2 now filePath prompt).data.bind
           (Json.getField · "fileMetadata")
         = (analyzeMultimedia parse fsi rr gen now filePath prompt).data.bind
             (Json.getField · "fileMetadata")) := by
  refine ⟨analyzeMultimedia_meta parse fsi rr gen now filePath prompt mt sz mdt hfile hsucc,
          ?_, ?_, ?_, ?_, ?_⟩
  · simp [fileMetadata, Json.getField, getKey]
  · simp [fileMetadata, Json.getField, getKey]
  · simp [fileMetadata, Json.getField, getKey]
  · simp [fileMetadata, Json.getField, getKey]
  · intro parse2 rr2 gen2 hsucc2
    rw [analyzeMultimedia_meta parse2 fsi rr2 gen2 now filePath prompt mt sz mdt hfile hsucc2,
        analyzeMultimedia_meta parse fsi rr gen now filePath prompt mt sz mdt hfile hsucc]

/-- C9 witness: a fallback-path success, a structured-object success and
an array-response success (where `fileMetadata` becomes an expando
property of the array) over the same file all carry the same metadata. -/
theorem fileMetadata_from_file_only_witness :
    (analyzeMultimedia pW fsiW (.ok "b64") (.ok tPlain) "2024-01-01T00:00:00.000Z"
        "media/file-1-2.png" "Analyze the ad").data.bind (Json.getField · "fileMetadata")
      = some (fileMetadata "media/file-1-2.png" "image/png" 2048 "image"
          "2024-01-01T00:00:00.000Z") ∧
    (analyzeMultimedia pW fsiW (.ok "b64") (.ok tSum) "2024-01-01T00:00:00.000Z"
        "media/file-1-2.png" "Analyze the ad").data.bind (Json.getField · "fileMetadata")
      = (analyzeMultimedia pW fsiW (.ok "b64") (.ok tPlain) "2024-01-01T00:00:00.000Z"
          "media/file-1-2.png" "Analyze the ad").data.bind
            (Json.getField · "fileMetadata") ∧
    (analyzeMultimedia pW fsiW (.ok "b64") (.ok "[1]") "2024-01-01T00:00:00.000Z"
        "media/file-1-2.png" "Analyze the ad").success = true ∧
    (analyzeMultimedia pW fsiW (.ok "b64") (.ok "[1]") "2024-01-01T00:00:00.000Z"
        "media/file-1-2.png" "Analyze the ad").data.bind (Json.getField · "fileMetadata")
      = (analyzeMultimedia pW fsiW (.ok "b64") (.ok tPlain) "2024-01-01T00:00:00.000Z"
          "media/file-1-2.png" "Analyze the ad").data.bind
            (Json.getField · "fileMetadata") := by
  have h := fileMetadata_from_file_only pW fsiW (.ok "b64") (.ok tPlain)
    "2024-01-01T00:00:00.000Z" "media/file-1-2.png" "Analyze the ad" "image/png" 2048
    "image" rfl rfl
  exact ⟨h.1, h.2.2.2.2.2 pW (.ok "b64") (.ok tSum) rfl, rfl,
         h.2.2.2.2.2 pW (.ok "b64") (.ok "[1]") rfl⟩

/-- C10: `checkAdCompliance` never throws: a `checkCompliance` failure of
any kind yields `compliant: false`, an empty `violatedPolicies` and a
details object carrying the error message; a success whose verdict omits
`compliant` or `violatedPolicies` gets them defaulted to `false` and `[]`
respectively. -/
theorem checkAdCompliance_total_shape (env : PolicyEnv)
    (cresp : Except String String) (st : PCState) (adSummary : Option Json) :
    (∀ e st1, checkCompliance env cresp st adSummary = (.error e, st1) →
       (checkAdCompliance env cresp st adSummary).1.compliant = .bool false ∧
       (checkAdCompliance env cresp st adSummary).1.violatedPolicies
         = .arr ([] : List Json) [] ∧
       (checkAdCompliance env cresp st adSummary).1.details.getField "error"
         = some (.str e)) ∧
    (∀ j st1, checkCompliance env cresp st adSummary = (.ok j, st1) →
       isNullJ j = false →
       j.getField "compliant" = none → j.getField "violatedPolicies" = none →
       (checkAdCompliance env cresp st adSummary).1.compliant = .bool false ∧
       (checkAdCompliance env cresp st adSummary).1.violatedPolicies
         = .arr ([] : List Json) []) := by
  constructor
  · intro e st1 h
    refine ⟨?_, ?_, ?_⟩ <;> simp [checkAdCompliance, h, errShape, Json.getField, getKey]
  · intro j st1 h hnull hc hv
    cases j with
    | null => simp [isNullJ] at hnull
    | bool b => constructor <;> simp [checkAdCompliance, h, jsOr, Json.getField]
    | num n => constructor <;> simp [checkAdCompliance, h, jsOr, Json.getField]
    | str s => constructor <;> simp [checkAdCompliance, h, jsOr, Json.getField]
    | arr xs ps => constructor <;> simp [checkAdCompliance, h, jsOr, hc, hv]
    | obj fs => constructor <;> simp [checkAdCompliance, h, jsOr, hc, hv]

/-- C10 witness: a validation failure produces the failure shape with the
message, and a success whose verdict is the empty object gets the
defaults. -/
theorem checkAdCompliance_total_shape_witness :
    ((checkAdCompliance envGood (.ok "x") pcInit none).1.compliant = .bool false ∧
     (checkAdCompliance envGood (.ok "x") pcInit none).1.violatedPolicies
       = .arr ([] : List Json) [] ∧
     (checkAdCompliance envGood (.ok "x") pcInit none).1.details.getField "error"
       = some (.str ("Failed to check compliance: " ++
           "Ad summary must be a non-empty string"))) ∧
    ((checkAdCompliance envGood (.ok "\x7b\x7d") pcInit
        (some (.str "my ad"))).1.compliant = .bool false ∧
     (checkAdCompliance envGood (.ok "\x7b\x7d") pcInit
        (some (.str "my ad"))).1.violatedPolicies = .arr ([] : List Json) []) :=
  ⟨(checkAdCompliance_total_shape envGood (.ok "x") pcInit none).1
     ("Failed to check compliance: " ++ "Ad summary must be a non-empty string")
     pcInit rfl,
   (checkAdCompliance_total_shape envGood (.ok "\x7b\x7d") pcInit
       (some (.str "my ad"))).2 (.obj [])
     { cachedPolicies := some (.arr [.num 1] []), fetchCount := 1, extractCount := 1 }
     rfl rfl rfl rfl⟩

end T3
